import Mathlib

/-!
Shallow embedding of the moss-py submission client (src/client.py and
src/config.py) and proofs about the protocol behaviour described in the
repository specification.

Modelling conventions:
* Server replies and wire lines are modelled as `String`s of byte-sized
  characters; `socket.recv(n)` is modelled as taking at most `n` characters
  from the next pending reply, and `bytes.decode` as the identity on that
  text.  `str.strip`/`str.lower` are modelled at the ASCII level, which is
  exhaustive for the protocol tokens involved (`"no"`, header keywords).
* File payloads are `List Nat` (byte lists); `open(...).read()` is modelled
  by an environment function `readFile : String → Option (List Nat)`, with
  `none` standing for an `OSError` while opening/reading.
* The filesystem seen by `config.py` is an environment with
  `isfile : String → Bool` (`os.path.isfile` at iteration time) and
  `glob : String → List String` (the expansion `iglob` produces at call
  time).
-/

/-- The whitespace characters stripped by Python `str.strip()` (ASCII part:
`' '`, `'\t'`, `'\n'`, `'\r'`, `'\x0b'`, `'\x0c'`). -/
def py_is_space (c : Char) : Bool :=
  c = ' ' || c = '\t' || c = '\n' || c = '\r' || c = '\x0B' || c = '\x0C'

/-- Python `str.strip()`: remove leading and trailing whitespace. -/
def py_strip (s : String) : String :=
  String.mk (((s.data.dropWhile py_is_space).reverse.dropWhile py_is_space).reverse)

/-- Python `str.lower()` restricted to ASCII (the protocol only compares
against the ASCII token `"no"`). -/
def ascii_lower (s : String) : String :=
  String.mk (s.data.map Char.toLower)

/-- `socket.recv(n)` returns at most `n` bytes: take at most `n` characters. -/
def take_bytes (s : String) (n : Nat) : String :=
  String.mk (s.data.take n)

/-- `config.py` line 18: `class MossLanguage(str, Enum)` — the closed set of
languages moss supports. -/
inductive MossLanguage where
  | c | cc | java | ml | pascal | ada | lisp | scheme | haskell | fortran
  | ascii | vhdl | perl | matlab | python | mips | prolog | spice | vb
  | csharp | modula2 | a8086 | javascript | plsql
deriving DecidableEq, Repr

/-- The `str` value of each `MossLanguage` member; this is what a Python
f-string interpolation of the member renders (the mixed-in `str` value). -/
def MossLanguage.value : MossLanguage → String
  | .c => "c"
  | .cc => "cc"
  | .java => "java"
  | .ml => "ml"
  | .pascal => "pascal"
  | .ada => "ada"
  | .lisp => "lisp"
  | .scheme => "scheme"
  | .haskell => "haskell"
  | .fortran => "fortran"
  | .ascii => "ascii"
  | .vhdl => "vhdl"
  | .perl => "perl"
  | .matlab => "matlab"
  | .python => "python"
  | .mips => "mips"
  | .prolog => "prolog"
  | .spice => "spice"
  | .vb => "vb"
  | .csharp => "csharp"
  | .modula2 => "modula2"
  | .a8086 => "a8086"
  | .javascript => "javascript"
  | .plsql => "plsql"

/-- `config.py` lines 47-67: the `MossConfig` dataclass.  `comment` defaults
to a timestamp string in the source (`str(datetime.today())`); it is an
arbitrary string here.  The private `__base_files`/`__base_globs` (and the
submission counterparts) are the lists populated by `add_base_file` /
`add_submission_file`. -/
structure MossConfig where
  user_id : String
  server : String := "moss.stanford.edu"
  port : String := "7690"
  comment : String := ""
  language : MossLanguage := MossLanguage.c
  use_directory_mode : Bool := false
  use_experimental_mode : Bool := false
  max_matches_displayed : Int := 250
  max_ignore_threshold : Int := 10
  base_globs : List String := []
  base_files_list : List String := []
  submission_globs : List String := []
  submission_files_list : List String := []
deriving DecidableEq, Repr

/-- The filesystem a session runs against.  The successive payloads the
server's socket delivers to `recv` calls are passed to `MossClient.send`
separately and threaded through `SessionSt.pending`. -/
structure Env where
  isfile : String → Bool
  glob : String → List String
  readFile : String → Option (List Nat)

/-- `config.py` lines 220-232, `MossConfig.base_files`:
`filter(path.isfile, chain(*(iglob(g, recursive=True) for g in base_globs), iter(base_files)))`
— glob expansions first (in glob insertion order), then the explicitly added
files, every yielded path checked with `os.path.isfile` at iteration time. -/
def MossConfig.base_files (cfg : MossConfig) (env : Env) : List String :=
  ((cfg.base_globs.map env.glob).flatten ++ cfg.base_files_list).filter env.isfile

/-- `config.py` lines 234-246, `MossConfig.submission_files`: same shape as
`base_files` over the submission lists. -/
def MossConfig.submission_files (cfg : MossConfig) (env : Env) : List String :=
  ((cfg.submission_globs.map env.glob).flatten ++ cfg.submission_files_list).filter env.isfile

/-- One observable action on the client's socket: `sendall` of an encoded
string, `sendall` of raw payload bytes, or a completed `recv` returning the
given raw text. -/
inductive WireEvent where
  | sendStr (s : String)
  | sendBytes (bs : List Nat)
  | didRecv (raw : String)
deriving DecidableEq, Repr

/-- Session state: the trace of wire actions so far (in order) and the
server payloads not yet consumed by `recv`. -/
structure SessionSt where
  trace : List WireEvent
  pending : List String
deriving DecidableEq, Repr

/-- The typed errors a session surfaces (spec §7): the source raises
`ValueError(f"Unsupported language: {language}")` for the protocol-level
rejection and an `OSError` naming the path when a file cannot be
opened/read. -/
inductive MossError where
  | unsupportedLanguage (lang : MossLanguage)
  | fileAccess (path : String)
deriving DecidableEq, Repr

namespace MossClient

/-- `self._socket.sendall(s.encode())` for a text line. -/
def sendall_str (s : String) (st : SessionSt) : SessionSt :=
  { st with trace := st.trace ++ [WireEvent.sendStr s] }

/-- `self._socket.sendall(contents)` for raw payload bytes. -/
def sendall_bytes (bs : List Nat) (st : SessionSt) : SessionSt :=
  { st with trace := st.trace ++ [WireEvent.sendBytes bs] }

/-- `self._socket.recv(bufSize)`: consume the next pending server payload,
returning at most `bufSize` bytes of it. -/
def socket_recv (bufSize : Nat) (st : SessionSt) : String × SessionSt :=
  let raw := take_bytes (st.pending.headD "") bufSize
  (raw, { trace := st.trace ++ [WireEvent.didRecv raw], pending := st.pending.tail })

/-- `client.py` lines 117-127, `MossClient._read_server_response_str`:
`return self._socket.recv(buf_size).decode().strip()` with
`buf_size = 1024` by default. -/
def read_server_response_str (st : SessionSt) (bufSize : Nat := 1024) : String × SessionSt :=
  let p := socket_recv bufSize st
  (py_strip p.1, p.2)

/-- `client.py` lines 54-74, `MossClient._send_file`: read the whole file,
send the framing string
`f"file {file_index} {self.config.language} {len(contents)} file_{file_index}"`
(note: the source appends no newline to it, and the `clean_filename`
variable it computes is never used), then send the raw contents. -/
def send_file (cfg : MossConfig) (env : Env) (filename : String) (file_index : Nat)
    (st : SessionSt) : Option MossError × SessionSt :=
  match env.readFile filename with
  | none => (some (MossError.fileAccess filename), st)
  | some contents =>
    let st := sendall_str
      ("file " ++ toString file_index ++ " " ++ cfg.language.value ++ " "
        ++ toString contents.length ++ " file_" ++ toString file_index) st
    let st := sendall_bytes contents st
    (none, st)

/-- `client.py` lines 76-100, `MossClient._send_headers`: six newline
terminated header lines in a fixed order, then one blocking read; if the
stripped reply lowercases to `"no"` the session fails with the
unsupported-language error carrying the configured language. -/
def send_headers (cfg : MossConfig) (st : SessionSt) : Option MossError × SessionSt :=
  let st := sendall_str ("moss " ++ cfg.user_id ++ "\n") st
  let st := sendall_str ("directory " ++ (if cfg.use_directory_mode then "1" else "0") ++ "\n") st
  let st := sendall_str ("X " ++ (if cfg.use_experimental_mode then "1" else "0") ++ "\n") st
  let st := sendall_str ("maxmatches " ++ toString cfg.max_ignore_threshold ++ "\n") st
  let st := sendall_str ("show " ++ toString cfg.max_matches_displayed ++ "\n") st
  let st := sendall_str ("language " ++ cfg.language.value ++ "\n") st
  let p := read_server_response_str st
  if ascii_lower p.1 = "no" then
    (some (MossError.unsupportedLanguage cfg.language), p.2)
  else
    (none, p.2)

/-- Upload a list of `(file_index, filename)` pairs in order with
`_send_file`; a raised error aborts the remaining iterations (Python
exception propagation out of the `for` loop). -/
def upload_list (cfg : MossConfig) (env : Env) :
    List (Nat × String) → SessionSt → Option MossError × SessionSt
  | [], st => (none, st)
  | p :: rest, st =>
    match send_file cfg env p.2 p.1 st with
    | (some e, st') => (some e, st')
    | (none, st') => upload_list cfg env rest st'

/-- `client.py` lines 102-107, `MossClient._upload_base_files`:
`for file in self.config.base_files(): self._send_file(file, 0)`. -/
def upload_base_files (cfg : MossConfig) (env : Env) (st : SessionSt) :
    Option MossError × SessionSt :=
  upload_list cfg env ((cfg.base_files env).map (fun f => (0, f))) st

/-- `client.py` lines 109-115, `MossClient._upload_submission_files`:
`for index, file in enumerate(self.config.submission_files(), start=1): self._send_file(file, index)`. -/
def upload_submission_files (cfg : MossConfig) (env : Env) (st : SessionSt) :
    Option MossError × SessionSt :=
  upload_list cfg env ((cfg.submission_files env).enumFrom 1) st

/-- `client.py` lines 129-134, `MossClient._query_server`:
`self._socket.sendall(f"query 0 {self.config.comment}\n".encode())`. -/
def query_server (cfg : MossConfig) (st : SessionSt) : SessionSt :=
  sendall_str ("query 0 " ++ cfg.comment ++ "\n") st

/-- The tail of `MossClient.send` after the header phase (`client.py`
lines 40-46): upload base files, upload submission files, send the query,
read and return the server's response. -/
def send_rest (cfg : MossConfig) (env : Env) (st : SessionSt) :
    Except MossError String × SessionSt :=
  match upload_base_files cfg env st with
  | (some e, st) => (Except.error e, st)
  | (none, st) =>
    match upload_submission_files cfg env st with
    | (some e, st) => (Except.error e, st)
    | (none, st) =>
      let st := query_server cfg st
      let p := read_server_response_str st
      (Except.ok p.1, p.2)

/-- `client.py` lines 30-46, `MossClient.send`: headers, base files,
submission files, query, then one read whose stripped text is returned.
`replies` is the sequence of payloads the server delivers to the session's
successive `recv` calls. -/
def send (cfg : MossConfig) (env : Env) (replies : List String) :
    Except MossError String × SessionSt :=
  let st0 : SessionSt := { trace := [], pending := replies }
  match send_headers cfg st0 with
  | (some e, st) => (Except.error e, st)
  | (none, st) => send_rest cfg env st

end MossClient

/-- The stripped text `_read_server_response_str` produces for the first
(header-phase) blocking read of a session whose server delivers `replies`. -/
def header_reply (replies : List String) : String :=
  py_strip (take_bytes (replies.headD "") 1024)

/-- The two wire actions `_send_file` performs for a `(file_index, filename)`
pair whose read succeeds: the framing string (no trailing newline in the
source) followed by the raw payload bytes. -/
def file_wire_events (cfg : MossConfig) (env : Env) (p : Nat × String) : List WireEvent :=
  [WireEvent.sendStr ("file " ++ toString p.1 ++ " " ++ cfg.language.value ++ " "
      ++ toString ((env.readFile p.2).getD []).length ++ " file_" ++ toString p.1),
   WireEvent.sendBytes ((env.readFile p.2).getD [])]

/-- The wire actions performed by the six `sendall` calls of
`_send_headers`, in source order. -/
def header_send_events (cfg : MossConfig) : List WireEvent :=
  [WireEvent.sendStr ("moss " ++ cfg.user_id ++ "\n"),
   WireEvent.sendStr ("directory " ++ (if cfg.use_directory_mode then "1" else "0") ++ "\n"),
   WireEvent.sendStr ("X " ++ (if cfg.use_experimental_mode then "1" else "0") ++ "\n"),
   WireEvent.sendStr ("maxmatches " ++ toString cfg.max_ignore_threshold ++ "\n"),
   WireEvent.sendStr ("show " ++ toString cfg.max_matches_displayed ++ "\n"),
   WireEvent.sendStr ("language " ++ cfg.language.value ++ "\n")]

/-- The events that actually transmit bytes to the server (`sendall` calls);
`recv` events are dropped. -/
def sent_events (tr : List WireEvent) : List WireEvent :=
  tr.filter (fun e => match e with
    | WireEvent.sendStr _ => true
    | WireEvent.sendBytes _ => true
    | WireEvent.didRecv _ => false)

/-!
Model of the connection-lifecycle ingredients used by `MossClient.__del__`
and `MossClient.__exit__` (client.py lines 136-145).

`__exit__` executes `del self`, which only unbinds the local name and has no
effect on the socket.  `__del__` unconditionally executes
`self._socket.sendall("end\n".encode())` and then `self._socket.close()`.
Transport semantics modelled from CPython: `socket.sendall` raises `OSError`
when the socket is not connected (e.g. `connect` in `__post_init__` failed)
or has already been closed, while `socket.close` itself never raises and is
idempotent.
-/

/-- The connection-relevant state of the client's socket. -/
structure PySocket where
  is_connected : Bool
  is_closed : Bool
deriving DecidableEq, Repr

/-- Whether `socket.sendall` raises `OSError` on this socket: it does
whenever the socket is not connected or has been closed. -/
def sendall_raises (s : PySocket) : Bool :=
  !s.is_connected || s.is_closed

/-- The body of `MossClient.__del__` (client.py lines 142-145): send the
`"end\n"` line with `sendall`, then close the socket.  If `sendall` raises,
the `close()` call is never reached and the error propagates. -/
def del_cleanup (s : PySocket) : Except Unit PySocket :=
  if sendall_raises s then Except.error ()
  else Except.ok { s with is_closed := true }

/-!  Concrete fixtures used by the witness theorems.  -/

/-- A concrete configuration: identity `"12345"`, language `python`, one
base file and two submission files added as plain paths, no globs. -/
def cfg1 : MossConfig :=
  { user_id := "12345", comment := "test run", language := MossLanguage.python,
    base_files_list := ["base.py"], submission_files_list := ["s1.py", "s2.py"] }

/-- A concrete environment: the three fixture files exist and are readable
(3, 2 and 1 bytes). -/
def env1 : Env :=
  { isfile := fun _ => true, glob := fun _ => [],
    readFile := fun f =>
      if f = "base.py" then some [10, 11, 12]
      else if f = "s1.py" then some [20, 21]
      else if f = "s2.py" then some [30]
      else none }

/-- An environment where only `"s1.py"` is (still) a regular file. -/
def env_only_s1 : Env :=
  { env1 with isfile := fun f => f = "s1.py" }

/-- Server replies for a successful session: a language acknowledgement,
then the result URL. -/
def replies1 : List String :=
  ["yes", " http://moss.stanford.edu/results/123 \n"]

/-- Server replies when the language is rejected: `"NO \n"` in the header
phase. -/
def replies_no : List String :=
  ["NO \n", ""]

/-!  Helper lemmas.  -/

theorem digitChar_isDigit (m : Nat) (h : m < 10) : (Nat.digitChar m).isDigit = true := by
  interval_cases m <;> decide

theorem toDigitsCore_digits (fuel : Nat) : ∀ (n : Nat) (acc : List Char),
    (∀ c ∈ acc, c.isDigit = true) →
    ∀ c ∈ Nat.toDigitsCore 10 fuel n acc, c.isDigit = true := by
  induction fuel with
  | zero => intro n acc hacc c hc; rw [Nat.toDigitsCore] at hc; exact hacc c hc
  | succ fuel ih =>
    intro n acc hacc c hc
    rw [Nat.toDigitsCore] at hc
    have hd : (Nat.digitChar (n % 10)).isDigit = true :=
      digitChar_isDigit _ (Nat.mod_lt _ (by omega))
    by_cases h0 : n / 10 = 0
    · rw [if_pos h0] at hc
      rcases List.mem_cons.mp hc with h | h
      · subst h; exact hd
      · exact hacc c h
    · rw [if_neg h0] at hc
      refine ih (n / 10) (Nat.digitChar (n % 10) :: acc) ?_ c hc
      intro d hdm
      rcases List.mem_cons.mp hdm with h | h
      · subst h; exact hd
      · exact hacc d h

/-- Every character of the decimal rendering of a `Nat` is a digit. -/
theorem nat_repr_digits (n : Nat) : ∀ c ∈ (Nat.repr n).data, c.isDigit = true := by
  intro c hc
  exact toDigitsCore_digits (n + 1) n [] (by intro d hd; cases hd) c hc

/-- A digit character is not Python whitespace. -/
theorem digit_not_py_space (c : Char) (h : c.isDigit = true) : py_is_space c = false := by
  simp only [py_is_space, Bool.or_eq_false_iff, decide_eq_false_iff_not]
  refine ⟨⟨⟨⟨⟨?_, ?_⟩, ?_⟩, ?_⟩, ?_⟩, ?_⟩ <;> rintro rfl <;> simp [Char.isDigit] at h

/-- Full characterization of `_send_headers`: the six header lines in source
order, one `recv` of at most 1024 bytes consuming the first pending reply,
and the unsupported-language error exactly when the stripped reply
lowercases to `"no"`. -/
theorem send_headers_eq (cfg : MossConfig) (st : SessionSt) :
    MossClient.send_headers cfg st =
      ((if ascii_lower (py_strip (take_bytes (st.pending.headD "") 1024)) = "no"
          then some (MossError.unsupportedLanguage cfg.language) else none),
       { trace := st.trace ++ header_send_events cfg
           ++ [WireEvent.didRecv (take_bytes (st.pending.headD "") 1024)],
         pending := st.pending.tail }) := by
  simp [MossClient.send_headers, MossClient.sendall_str,
    MossClient.read_server_response_str, MossClient.socket_recv, header_send_events]
  split <;> simp_all

/-- `_send_file` on a readable file: appends exactly the framing string and
the raw payload to the trace and touches nothing else. -/
theorem send_file_eq_of_read (cfg : MossConfig) (env : Env) (f : String) (i : Nat)
    (st : SessionSt) (contents : List Nat) (h : env.readFile f = some contents) :
    MossClient.send_file cfg env f i st =
      (none,
       { st with trace := st.trace ++
          [WireEvent.sendStr ("file " ++ toString i ++ " " ++ cfg.language.value ++ " "
              ++ toString contents.length ++ " file_" ++ toString i),
           WireEvent.sendBytes contents] }) := by
  simp [MossClient.send_file, h, MossClient.sendall_str, MossClient.sendall_bytes]

/-- `upload_list` when every listed file is readable: no error, and the
trace grows by exactly the per-file wire events, in order. -/
theorem upload_list_ok (cfg : MossConfig) (env : Env) (pairs : List (Nat × String)) :
    ∀ st : SessionSt, (∀ p ∈ pairs, (env.readFile p.2).isSome) →
    MossClient.upload_list cfg env pairs st =
      (none, { st with trace := st.trace ++ (pairs.map (file_wire_events cfg env)).flatten }) := by
  induction pairs with
  | nil => intro st _; simp [MossClient.upload_list]
  | cons p rest ih =>
    intro st h
    obtain ⟨c, hc⟩ := Option.isSome_iff_exists.mp (h p (List.mem_cons_self p rest))
    rw [MossClient.upload_list, send_file_eq_of_read cfg env p.2 p.1 st c hc]
    change MossClient.upload_list cfg env rest _ = _
    rw [ih _ (fun q hq => h q (List.mem_cons_of_mem p hq))]
    simp [file_wire_events, hc, List.append_assoc]

/-- Any error produced while uploading a list of files is a file-access
error (never an unsupported-language error). -/
theorem upload_list_error (cfg : MossConfig) (env : Env) (pairs : List (Nat × String)) :
    ∀ (st : SessionSt) (e : MossError) (st2 : SessionSt),
    MossClient.upload_list cfg env pairs st = (some e, st2) →
    ∃ f, e = MossError.fileAccess f := by
  induction pairs with
  | nil => intro st e st2 h; simp [MossClient.upload_list] at h
  | cons p rest ih =>
    intro st e st2 h
    rw [MossClient.upload_list] at h
    cases hr : env.readFile p.2 with
    | none =>
      simp [MossClient.send_file, hr] at h
      exact ⟨p.2, h.1.symm⟩
    | some c =>
      rw [send_file_eq_of_read cfg env p.2 p.1 st c hr] at h
      replace h : MossClient.upload_list cfg env rest _ = (some e, st2) := h
      exact ih _ e st2 h

/-- Frame property of `upload_list`: the initial trace is only appended to,
and the appended part and the outcome depend only on the pending replies
(which `upload_list` in fact never touches). -/
theorem upload_list_frame (cfg : MossConfig) (env : Env) (pairs : List (Nat × String)) :
    ∀ (t : List WireEvent) (p : List String),
    MossClient.upload_list cfg env pairs { trace := t, pending := p } =
      ((MossClient.upload_list cfg env pairs { trace := [], pending := p }).1,
       { trace := t ++ (MossClient.upload_list cfg env pairs { trace := [], pending := p }).2.trace,
         pending := (MossClient.upload_list cfg env pairs { trace := [], pending := p }).2.pending }) := by
  induction pairs with
  | nil => intro t p; simp [MossClient.upload_list]
  | cons q rest ih =>
    intro t p
    cases hr : env.readFile q.2 with
    | none =>
      simp [MossClient.upload_list, MossClient.send_file, hr]
    | some c =>
      rw [MossClient.upload_list,
        send_file_eq_of_read cfg env q.2 q.1 { trace := t, pending := p } c hr]
      rw [MossClient.upload_list,
        send_file_eq_of_read cfg env q.2 q.1 { trace := [], pending := p } c hr]
      change MossClient.upload_list cfg env rest _ =
        ((MossClient.upload_list cfg env rest _).1, _)
      rw [ih (t ++ _) p]
      simp only [List.nil_append]
      rw [ih [WireEvent.sendStr ("file " ++ toString q.1 ++ " " ++ cfg.language.value ++ " "
            ++ toString c.length ++ " file_" ++ toString q.1), WireEvent.sendBytes c] p]
      simp [List.append_assoc]

/-- Frame property of `send_rest`: the initial trace is only appended to;
the outcome and the appended events depend only on the environment and the
pending replies. -/
theorem send_rest_frame (cfg : MossConfig) (env : Env) (t : List WireEvent) (p : List String) :
    MossClient.send_rest cfg env { trace := t, pending := p } =
      ((MossClient.send_rest cfg env { trace := [], pending := p }).1,
       { trace := t ++ (MossClient.send_rest cfg env { trace := [], pending := p }).2.trace,
         pending := (MossClient.send_rest cfg env { trace := [], pending := p }).2.pending }) := by
  rcases h1 : MossClient.upload_list cfg env ((cfg.base_files env).map (fun f => (0, f)))
      { trace := [], pending := p } with ⟨r1, st1⟩
  obtain ⟨tr1, p1⟩ := st1
  have hb : ∀ t0 : List WireEvent,
      MossClient.upload_list cfg env ((cfg.base_files env).map (fun f => (0, f)))
        { trace := t0, pending := p } = (r1, { trace := t0 ++ tr1, pending := p1 }) := by
    intro t0
    rw [upload_list_frame, h1]
  cases r1 with
  | some e =>
    simp [MossClient.send_rest, MossClient.upload_base_files, hb]
  | none =>
    rcases h2 : MossClient.upload_list cfg env ((cfg.submission_files env).enumFrom 1)
        { trace := [], pending := p1 } with ⟨r2, st2⟩
    obtain ⟨tr2, p2⟩ := st2
    have hs : ∀ t0 : List WireEvent,
        MossClient.upload_list cfg env ((cfg.submission_files env).enumFrom 1)
          { trace := t0, pending := p1 } = (r2, { trace := t0 ++ tr2, pending := p2 }) := by
      intro t0
      rw [upload_list_frame, h2]
    cases r2 with
    | some e =>
      simp [MossClient.send_rest, MossClient.upload_base_files,
        MossClient.upload_submission_files, hb, hs, List.append_assoc]
    | none =>
      simp [MossClient.send_rest, MossClient.upload_base_files,
        MossClient.upload_submission_files, hb, hs, MossClient.query_server,
        MossClient.sendall_str, MossClient.read_server_response_str,
        MossClient.socket_recv, List.append_assoc]

/-- `send_rest` (= everything in `send` after the header phase) can fail
only with a file-access error, never with the unsupported-language error. -/
theorem send_rest_no_unsupported (cfg : MossConfig) (env : Env) (st : SessionSt)
    (l : MossLanguage) :
    (MossClient.send_rest cfg env st).1 ≠ Except.error (MossError.unsupportedLanguage l) := by
  rcases hb : MossClient.upload_base_files cfg env st with ⟨r1, st1⟩
  cases r1 with
  | some e =>
    obtain ⟨f, hf⟩ := upload_list_error cfg env _ st e st1 hb
    subst hf
    simp [MossClient.send_rest, hb]
  | none =>
    rcases hs : MossClient.upload_submission_files cfg env st1 with ⟨r2, st2⟩
    cases r2 with
    | some e =>
      obtain ⟨f, hf⟩ := upload_list_error cfg env _ st1 e st2 hs
      subst hf
      simp [MossClient.send_rest, hb, hs]
    | none =>
      simp [MossClient.send_rest, hb, hs]

/-- Success-path characterization of `send_rest`: base files first (all with
index 0), then submission files enumerated from 1, then the query line, then
exactly one `recv` whose stripped text is returned. -/
theorem send_rest_ok_eq (cfg : MossConfig) (env : Env) (st : SessionSt)
    (hbase : ∀ f ∈ cfg.base_files env, (env.readFile f).isSome)
    (hsub : ∀ f ∈ cfg.submission_files env, (env.readFile f).isSome) :
    MossClient.send_rest cfg env st =
      (Except.ok (py_strip (take_bytes (st.pending.headD "") 1024)),
       { trace := st.trace
           ++ (((cfg.base_files env).map (fun f => (0, f))).map (file_wire_events cfg env)).flatten
           ++ (((cfg.submission_files env).enumFrom 1).map (file_wire_events cfg env)).flatten
           ++ [WireEvent.sendStr ("query 0 " ++ cfg.comment ++ "\n"),
               WireEvent.didRecv (take_bytes (st.pending.headD "") 1024)],
         pending := st.pending.tail }) := by
  have hbp : ∀ q ∈ (cfg.base_files env).map (fun f => (0, f)), (env.readFile q.2).isSome := by
    intro q hq
    obtain ⟨f, hf, rfl⟩ := List.mem_map.mp hq
    exact hbase f hf
  have hsp : ∀ q ∈ (cfg.submission_files env).enumFrom 1, (env.readFile q.2).isSome := by
    intro q hq
    exact hsub q.2 (List.snd_mem_of_mem_enumFrom hq)
  have hbu := fun st0 => upload_list_ok cfg env ((cfg.base_files env).map (fun f => (0, f))) st0 hbp
  have hsu := fun st0 => upload_list_ok cfg env ((cfg.submission_files env).enumFrom 1) st0 hsp
  simp only [MossClient.send_rest, MossClient.upload_base_files,
    MossClient.upload_submission_files, hbu, hsu, MossClient.query_server,
    MossClient.sendall_str, MossClient.read_server_response_str, MossClient.socket_recv]
  simp [List.append_assoc]

/-- `send` when the header-phase reply (stripped, lowercased) is `"no"`:
the unsupported-language error, after exactly the six header lines and the
one header-phase `recv`. -/
theorem send_no_eq (cfg : MossConfig) (env : Env) (replies : List String)
    (h : ascii_lower (header_reply replies) = "no") :
    MossClient.send cfg env replies =
      (Except.error (MossError.unsupportedLanguage cfg.language),
       { trace := header_send_events cfg
           ++ [WireEvent.didRecv (take_bytes (replies.headD "") 1024)],
         pending := replies.tail }) := by
  have h' : ascii_lower (py_strip (take_bytes (replies.headD "") 1024)) = "no" := h
  simp only [List.headD_eq_head?_getD] at h'
  simp [MossClient.send, send_headers_eq, h']

/-- `send` when the header-phase reply is anything else: the session
continues with the post-header phases from the post-header state. -/
theorem send_ok_eq (cfg : MossConfig) (env : Env) (replies : List String)
    (h : ¬ascii_lower (header_reply replies) = "no") :
    MossClient.send cfg env replies =
      MossClient.send_rest cfg env
        { trace := header_send_events cfg
            ++ [WireEvent.didRecv (take_bytes (replies.headD "") 1024)],
          pending := replies.tail } := by
  have h' : ¬ascii_lower (py_strip (take_bytes (replies.headD "") 1024)) = "no" := h
  simp only [List.headD_eq_head?_getD] at h'
  simp [MossClient.send, send_headers_eq, h']

/-- Taking the first six trace events of anything that starts with the
header sends yields exactly the header sends. -/
theorem headers_take6 (cfg : MossConfig) (rest : List WireEvent) :
    (header_send_events cfg ++ rest).take 6 = header_send_events cfg := rfl

theorem sent_events_append (t1 t2 : List WireEvent) :
    sent_events (t1 ++ t2) = sent_events t1 ++ sent_events t2 := by
  simp [sent_events, List.filter_append]

theorem sent_events_headers (cfg : MossConfig) (r : String) :
    sent_events (header_send_events cfg ++ [WireEvent.didRecv r]) = header_send_events cfg := by
  simp [sent_events, header_send_events]

/-- If two post-header states carry the same pending replies and traces
with the same sent events, the remaining phases produce the same outcome
and the same sent events: the content of a discarded header reply never
influences the rest of the session. -/
theorem send_rest_result_and_sent (cfg : MossConfig) (env : Env)
    (t₁ t₂ : List WireEvent) (p : List String)
    (hsame : sent_events t₁ = sent_events t₂) :
    (MossClient.send_rest cfg env { trace := t₁, pending := p }).1 =
      (MossClient.send_rest cfg env { trace := t₂, pending := p }).1 ∧
    sent_events (MossClient.send_rest cfg env { trace := t₁, pending := p }).2.trace =
      sent_events (MossClient.send_rest cfg env { trace := t₂, pending := p }).2.trace := by
  rw [send_rest_frame cfg env t₁ p, send_rest_frame cfg env t₂ p]
  exact ⟨rfl, by rw [sent_events_append, sent_events_append, hsame]⟩

/-!  Claim theorems.  -/

/-- C1: for every configuration, environment and server behaviour, `send()`
emits the six header lines first and in the fixed order `moss <identity>`,
`directory <1|0>`, `X <1|0>`, `maxmatches <maxIgnoreThreshold>`,
`show <maxMatchesDisplayed>`, `language <language>`, each newline
terminated, with the directory and experimental flags rendered exactly as
`"1"` when set and `"0"` when unset. -/
theorem c1_headers_fixed_order (cfg : MossConfig) (env : Env) (replies : List String) :
    (MossClient.send cfg env replies).2.trace.take 6 =
      [WireEvent.sendStr ("moss " ++ cfg.user_id ++ "\n"),
       WireEvent.sendStr ("directory " ++ (if cfg.use_directory_mode then "1" else "0") ++ "\n"),
       WireEvent.sendStr ("X " ++ (if cfg.use_experimental_mode then "1" else "0") ++ "\n"),
       WireEvent.sendStr ("maxmatches " ++ toString cfg.max_ignore_threshold ++ "\n"),
       WireEvent.sendStr ("show " ++ toString cfg.max_matches_displayed ++ "\n"),
       WireEvent.sendStr ("language " ++ cfg.language.value ++ "\n")] := by
  by_cases h : ascii_lower (header_reply replies) = "no"
  · rw [send_no_eq cfg env replies h]
    exact headers_take6 cfg _
  · rw [send_ok_eq cfg env replies h, send_rest_frame]
    show ((header_send_events cfg ++ _) ++ _).take 6 = _
    rw [List.append_assoc]
    exact headers_take6 cfg _

/-- C2: `send()` fails with the unsupported-language error (carrying the
configured language) if and only if the header-phase reply, stripped and
lowercased, equals `"no"`; in that case the only bytes ever sent are the
six header lines (no file framing line, no payload, no query line); any
other reply is discarded — the outcome and all sent bytes are independent
of its content — and the session proceeds. -/
theorem c2_unsupported_language_iff (cfg : MossConfig) (env : Env) (replies : List String) :
    ((MossClient.send cfg env replies).1 =
        Except.error (MossError.unsupportedLanguage cfg.language) ↔
      ascii_lower (header_reply replies) = "no")
    ∧ (ascii_lower (header_reply replies) = "no" →
        sent_events (MossClient.send cfg env replies).2.trace = header_send_events cfg)
    ∧ (∀ r₁ r₂ : String, ∀ rest : List String,
        ¬ascii_lower (header_reply (r₁ :: rest)) = "no" →
        ¬ascii_lower (header_reply (r₂ :: rest)) = "no" →
        (MossClient.send cfg env (r₁ :: rest)).1 = (MossClient.send cfg env (r₂ :: rest)).1 ∧
        sent_events (MossClient.send cfg env (r₁ :: rest)).2.trace =
          sent_events (MossClient.send cfg env (r₂ :: rest)).2.trace) := by
  refine ⟨⟨?_, ?_⟩, ?_, ?_⟩
  · intro he
    by_contra hn
    rw [send_ok_eq cfg env replies hn] at he
    exact send_rest_no_unsupported cfg env _ cfg.language he
  · intro h
    rw [send_no_eq cfg env replies h]
  · intro h
    rw [send_no_eq cfg env replies h]
    exact sent_events_headers cfg _
  · intro r₁ r₂ rest h₁ h₂
    rw [send_ok_eq cfg env _ h₁, send_ok_eq cfg env _ h₂]
    simp only [List.tail_cons, List.headD_cons]
    exact send_rest_result_and_sent cfg env _ _ rest
      (by rw [sent_events_headers, sent_events_headers])

/-- C2 witness: with the fixture configuration and the reply `"NO \n"`, the
session fails with the unsupported-language error for `python` and the sent
bytes are exactly the six header lines. -/
theorem c2_witness :
    ascii_lower (header_reply replies_no) = "no" ∧
    (MossClient.send cfg1 env1 replies_no).1 =
      Except.error (MossError.unsupportedLanguage MossLanguage.python) ∧
    sent_events (MossClient.send cfg1 env1 replies_no).2.trace = header_send_events cfg1 :=
  ⟨by decide,
   (c2_unsupported_language_iff cfg1 env1 replies_no).1.mpr (by decide),
   (c2_unsupported_language_iff cfg1 env1 replies_no).2.1 (by decide)⟩

/-- C5: for any file whose payload is `contents` (of length `L`), the
framing line declares exactly `L` and exactly those `L` payload bytes are
written immediately after it, with nothing in between. -/
theorem c5_declared_length_exact (cfg : MossConfig) (env : Env) (f : String) (i : Nat)
    (st : SessionSt) (contents : List Nat) (h : env.readFile f = some contents) :
    MossClient.send_file cfg env f i st =
      (none,
       { st with trace := st.trace ++
          [WireEvent.sendStr ("file " ++ toString i ++ " " ++ cfg.language.value ++ " "
              ++ toString contents.length ++ " file_" ++ toString i),
           WireEvent.sendBytes contents] }) :=
  send_file_eq_of_read cfg env f i st contents h

/-- C5 witness: uploading the 2-byte fixture file at index 7 declares
length 2 and sends exactly those two bytes right after the framing line. -/
theorem c5_witness :
    env1.readFile "s1.py" = some [20, 21] ∧
    MossClient.send_file cfg1 env1 "s1.py" 7 { trace := [], pending := [] } =
      (none,
       { trace := [WireEvent.sendStr ("file " ++ toString 7 ++ " " ++ cfg1.language.value ++ " "
            ++ toString ([20, 21] : List Nat).length ++ " file_" ++ toString 7),
          WireEvent.sendBytes [20, 21]],
         pending := [] }) :=
  ⟨by decide, c5_declared_length_exact cfg1 env1 "s1.py" 7 _ [20, 21] (by decide)⟩

/-- C8 (code bug): the first close of a connected session succeeds, but
closing a second time — and closing a session whose `connect` failed so the
socket was never connected — raises, because `__del__` unconditionally
sends the `"end\n"` line before closing; the claimed idempotent, total
close does not hold on this code. -/
theorem c8_close_not_idempotent :
    del_cleanup { is_connected := true, is_closed := false } =
      Except.ok { is_connected := true, is_closed := true }
    ∧ del_cleanup { is_connected := true, is_closed := true } = Except.error ()
    ∧ del_cleanup { is_connected := false, is_closed := false } = Except.error () :=
  ⟨rfl, rfl, rfl⟩

/-- C9: `base_files()` and `submission_files()` re-evaluate the
is-regular-file status against the filesystem of the call, every yielded
path is a regular file under that filesystem, and a path that stopped being
a regular file is absent from any later call's result. -/
theorem c9_file_sequences_fresh (cfg : MossConfig) :
    (∀ env : Env, ∀ p ∈ cfg.base_files env, env.isfile p = true)
    ∧ (∀ env : Env, ∀ p ∈ cfg.submission_files env, env.isfile p = true)
    ∧ (∀ e₁ e₂ : Env, ∀ p, p ∈ cfg.base_files e₁ → e₂.isfile p = false →
        p ∉ cfg.base_files e₂)
    ∧ (∀ e₁ e₂ : Env, ∀ p, p ∈ cfg.submission_files e₁ → e₂.isfile p = false →
        p ∉ cfg.submission_files e₂) := by
  refine ⟨?_, ?_, ?_, ?_⟩
  · intro env p hp
    exact (List.mem_filter.mp hp).2
  · intro env p hp
    exact (List.mem_filter.mp hp).2
  · intro e₁ e₂ p _ h2 hmem
    have := (List.mem_filter.mp hmem).2
    rw [h2] at this
    cases this
  · intro e₁ e₂ p _ h2 hmem
    have := (List.mem_filter.mp hmem).2
    rw [h2] at this
    cases this

/-- C9 witness: `"base.py"` is yielded while it is a regular file, and is
no longer yielded once the filesystem reports it is not. -/
theorem c9_witness :
    "base.py" ∈ cfg1.base_files env1 ∧
    env1.isfile "base.py" = true ∧
    env_only_s1.isfile "base.py" = false ∧
    "base.py" ∉ cfg1.base_files env_only_s1 :=
  ⟨by decide,
   (c9_file_sequences_fresh cfg1).1 env1 "base.py" (by decide),
   by decide,
   (c9_file_sequences_fresh cfg1).2.2.1 env1 env_only_s1 "base.py" (by decide) (by decide)⟩

/-- C10: the label in the framing line is exactly `"file_"` followed by the
decimal file index — a single whitespace-free token — and the whole framing
line is independent of the real filename; in particular every file uploaded
at index 0 (every base file) carries the identical label `"file_0"`. -/
theorem c10_file_label (cfg : MossConfig) (env : Env) (f : String) (i : Nat)
    (st : SessionSt) (contents : List Nat) (h : env.readFile f = some contents) :
    MossClient.send_file cfg env f i st =
      (none,
       { st with trace := st.trace ++
          [WireEvent.sendStr ("file " ++ toString i ++ " " ++ cfg.language.value ++ " "
              ++ toString contents.length ++ " file_" ++ toString i),
           WireEvent.sendBytes contents] })
    ∧ (("file_" ++ toString i).data.all fun c => !py_is_space c) = true
    ∧ ∀ f' : String, env.readFile f' = some contents →
        MossClient.send_file cfg env f' i st = MossClient.send_file cfg env f i st := by
  refine ⟨send_file_eq_of_read cfg env f i st contents h, ?_, ?_⟩
  · rw [List.all_eq_true]
    intro c hc
    rw [String.data_append] at hc
    rcases List.mem_append.mp hc with h' | h'
    · have h5 : c ∈ ['f', 'i', 'l', 'e', '_'] := h'
      fin_cases h5 <;> decide
    · have hd := nat_repr_digits i c h'
      simp [digit_not_py_space c hd]
  · intro f' h'
    rw [send_file_eq_of_read cfg env f' i st contents h',
      send_file_eq_of_read cfg env f i st contents h]

/-- C10 witness: two distinct fixture files both uploaded at index 0 carry
the identical label `"file_0"`, and neither framing line mentions the real
filename. -/
theorem c10_witness :
    env1.readFile "base.py" = some [10, 11, 12] ∧
    MossClient.send_file cfg1 env1 "base.py" 0 { trace := [], pending := [] } =
      (none,
       { trace := [WireEvent.sendStr ("file " ++ toString 0 ++ " " ++ cfg1.language.value ++ " "
            ++ toString ([10, 11, 12] : List Nat).length ++ " file_" ++ toString 0),
          WireEvent.sendBytes [10, 11, 12]],
         pending := [] }) ∧
    env1.readFile "s2.py" = some [30] ∧
    MossClient.send_file cfg1 env1 "s2.py" 0 { trace := [], pending := [] } =
      (none,
       { trace := [WireEvent.sendStr ("file " ++ toString 0 ++ " " ++ cfg1.language.value ++ " "
            ++ toString ([30] : List Nat).length ++ " file_" ++ toString 0),
          WireEvent.sendBytes [30]],
         pending := [] }) :=
  ⟨by decide,
   (c10_file_label cfg1 env1 "base.py" 0 _ [10, 11, 12] (by decide)).1,
   by decide,
   (c10_file_label cfg1 env1 "s2.py" 0 _ [30] (by decide)).1⟩

/-- C4 (code bug): the framing line `_send_file` sends is not newline
terminated: uploading the 2-byte fixture file at index 1 sends exactly the
string `"file 1 python 2 file_1"` — whose last character is `'1'`, not a
newline — immediately followed by the raw payload bytes. -/
theorem c4_framing_line_missing_newline :
    MossClient.send_file cfg1 env1 "s1.py" 1 { trace := [], pending := [] } =
      (none,
       { trace := [WireEvent.sendStr "file 1 python 2 file_1",
          WireEvent.sendBytes [20, 21]],
         pending := [] })
    ∧ ("file 1 python 2 file_1").data.getLast? = some '1'
    ∧ ¬("file 1 python 2 file_1").data.getLast? = some '\n' := by
  refine ⟨by decide, by decide, by decide⟩

/-!  First-character helpers used to tell protocol lines apart.  -/

theorem append_left_data_head (a x : String) (c : Char) (tl : List Char)
    (ha : a.data = c :: tl) : (a ++ x).data = c :: (tl ++ x.data) := by
  rw [String.data_append, ha]
  rfl

theorem exists_head_append (a x : String) (c : Char)
    (h : ∃ tl, a.data = c :: tl) : ∃ tl, (a ++ x).data = c :: tl := by
  obtain ⟨tl, htl⟩ := h
  exact ⟨tl ++ x.data, append_left_data_head a x c tl htl⟩

theorem ne_of_data_heads (a b : String) (ca cb : Char)
    (ha : ∃ t, a.data = ca :: t) (hb : ∃ t, b.data = cb :: t) (hne : ca ≠ cb) :
    a ≠ b := by
  obtain ⟨ta, ha⟩ := ha
  obtain ⟨tb, hb⟩ := hb
  intro he
  rw [he, hb] at ha
  injection ha with h1 h2
  exact hne h1.symm

/-- The query line starts with `'q'`. -/
theorem query_line_head (cfg : MossConfig) :
    ∃ tl, ("query 0 " ++ cfg.comment ++ "\n").data = 'q' :: tl :=
  exists_head_append _ "\n" 'q'
    (exists_head_append "query 0 " cfg.comment 'q' ⟨"uery 0 ".data, rfl⟩)

/-- Every file framing line starts with `'f'`. -/
theorem frame_line_head (cfg : MossConfig) (i len : Nat) :
    ∃ tl, ("file " ++ toString i ++ " " ++ cfg.language.value ++ " "
        ++ toString len ++ " file_" ++ toString i).data = 'f' :: tl :=
  exists_head_append _ _ 'f' (exists_head_append _ _ 'f' (exists_head_append _ _ 'f'
    (exists_head_append _ _ 'f' (exists_head_append _ _ 'f' (exists_head_append _ _ 'f'
      (exists_head_append "file " (toString i) 'f' ⟨"ile ".data, rfl⟩))))))

/-- No header line is (equal to) the query line: their first characters
differ. -/
theorem header_event_ne_query (cfg : MossConfig) (e : WireEvent)
    (he : e ∈ header_send_events cfg) :
    e ≠ WireEvent.sendStr ("query 0 " ++ cfg.comment ++ "\n") := by
  have hq := query_line_head cfg
  simp only [header_send_events, List.mem_cons, List.not_mem_nil, or_false] at he
  rcases he with rfl | rfl | rfl | rfl | rfl | rfl
  · exact fun hcontra => (ne_of_data_heads _ _ 'm' 'q'
      (exists_head_append _ "\n" 'm'
        (exists_head_append "moss " cfg.user_id 'm' ⟨"oss ".data, rfl⟩))
      hq (by decide)) (WireEvent.sendStr.inj hcontra)
  · exact fun hcontra => (ne_of_data_heads _ _ 'd' 'q'
      (exists_head_append _ "\n" 'd'
        (exists_head_append "directory " _ 'd' ⟨"irectory ".data, rfl⟩))
      hq (by decide)) (WireEvent.sendStr.inj hcontra)
  · exact fun hcontra => (ne_of_data_heads _ _ 'X' 'q'
      (exists_head_append _ "\n" 'X'
        (exists_head_append "X " _ 'X' ⟨" ".data, rfl⟩))
      hq (by decide)) (WireEvent.sendStr.inj hcontra)
  · exact fun hcontra => (ne_of_data_heads _ _ 'm' 'q'
      (exists_head_append _ "\n" 'm'
        (exists_head_append "maxmatches " _ 'm' ⟨"axmatches ".data, rfl⟩))
      hq (by decide)) (WireEvent.sendStr.inj hcontra)
  · exact fun hcontra => (ne_of_data_heads _ _ 's' 'q'
      (exists_head_append _ "\n" 's'
        (exists_head_append "show " _ 's' ⟨"how ".data, rfl⟩))
      hq (by decide)) (WireEvent.sendStr.inj hcontra)
  · exact fun hcontra => (ne_of_data_heads _ _ 'l' 'q'
      (exists_head_append _ "\n" 'l'
        (exists_head_append "language " _ 'l' ⟨"anguage ".data, rfl⟩))
      hq (by decide)) (WireEvent.sendStr.inj hcontra)

/-- No event of the file-upload phase is the query line. -/
theorem countP_query_file_events (cfg : MossConfig) (env : Env)
    (pairs : List (Nat × String)) :
    ((pairs.map (file_wire_events cfg env)).flatten).countP
      (fun e => e = WireEvent.sendStr ("query 0 " ++ cfg.comment ++ "\n")) = 0 := by
  rw [List.countP_eq_zero]
  intro e he
  obtain ⟨l, hl, hel⟩ := List.mem_flatten.mp he
  obtain ⟨q, hq, rfl⟩ := List.mem_map.mp hl
  simp only [file_wire_events, List.mem_cons, List.not_mem_nil, or_false] at hel
  rcases hel with rfl | rfl
  · simp only [decide_eq_true_eq]
    exact fun hcontra => (ne_of_data_heads _ _ 'f' 'q'
      (frame_line_head cfg q.1 _) (query_line_head cfg) (by decide))
      (WireEvent.sendStr.inj hcontra)
  · simp

/-- C3: in a session that reaches the upload phase, every base file is
tagged with file index 0, the submission files are tagged `1, 2, 3, …` in
iteration order (the tags of the submission enumeration are exactly
`range' 1 n`, never reset mid-sequence), and all base-file uploads precede
all submission-file uploads on the wire. -/
theorem c3_file_indices (cfg : MossConfig) (env : Env) (replies : List String)
    (hno : ¬ascii_lower (header_reply replies) = "no")
    (hbase : ∀ f ∈ cfg.base_files env, (env.readFile f).isSome)
    (hsub : ∀ f ∈ cfg.submission_files env, (env.readFile f).isSome) :
    ((cfg.base_files env).map (fun f => ((0 : Nat), f))).map Prod.fst =
        List.replicate (cfg.base_files env).length 0
    ∧ ((cfg.submission_files env).enumFrom 1).map Prod.fst =
        List.range' 1 (cfg.submission_files env).length
    ∧ ∃ tail, (MossClient.send cfg env replies).2.trace =
        header_send_events cfg ++ [WireEvent.didRecv (take_bytes (replies.headD "") 1024)]
        ++ ((((cfg.base_files env).map (fun f => ((0 : Nat), f)))
              ++ (cfg.submission_files env).enumFrom 1).map (file_wire_events cfg env)).flatten
        ++ tail := by
  refine ⟨?_, ?_, ?_⟩
  · simp [List.map_map, Function.comp_def, List.map_const']
  · exact List.enumFrom_map_fst 1 (cfg.submission_files env)
  · rw [send_ok_eq cfg env replies hno, send_rest_ok_eq cfg env _ hbase hsub]
    refine ⟨[WireEvent.sendStr ("query 0 " ++ cfg.comment ++ "\n"),
             WireEvent.didRecv (take_bytes (replies.tail.headD "") 1024)], ?_⟩
    rw [List.map_append, List.flatten_append]
    simp [List.append_assoc]

/-- C3 witness: the fixture session (one base file, two submission files)
reaches the upload phase and satisfies the index-tagging decomposition. -/
theorem c3_witness :
    (¬ascii_lower (header_reply replies1) = "no") ∧
    (∀ f ∈ cfg1.base_files env1, (env1.readFile f).isSome) ∧
    (∀ f ∈ cfg1.submission_files env1, (env1.readFile f).isSome) ∧
    (((cfg1.base_files env1).map (fun f => ((0 : Nat), f))).map Prod.fst =
        List.replicate (cfg1.base_files env1).length 0
      ∧ ((cfg1.submission_files env1).enumFrom 1).map Prod.fst =
          List.range' 1 (cfg1.submission_files env1).length
      ∧ ∃ tail, (MossClient.send cfg1 env1 replies1).2.trace =
          header_send_events cfg1 ++ [WireEvent.didRecv (take_bytes (replies1.headD "") 1024)]
          ++ ((((cfg1.base_files env1).map (fun f => ((0 : Nat), f)))
                ++ (cfg1.submission_files env1).enumFrom 1).map (file_wire_events cfg1 env1)).flatten
          ++ tail) :=
  ⟨by decide, by decide, by decide,
   c3_file_indices cfg1 env1 replies1 (by decide) (by decide) (by decide)⟩

/-- C6: `_query_server` appends exactly one newline-terminated line of the
exact form `query 0 <comment>` with the comment substituted verbatim, and
on the success path the full session trace contains exactly one such query
line, sent after all file uploads and followed only by the final read. -/
theorem c6_query_line (cfg : MossConfig) :
    (∀ st : SessionSt, MossClient.query_server cfg st =
      { st with trace := st.trace ++ [WireEvent.sendStr ("query 0 " ++ cfg.comment ++ "\n")] })
    ∧ ∀ (env : Env) (replies : List String),
        ¬ascii_lower (header_reply replies) = "no" →
        (∀ f ∈ cfg.base_files env, (env.readFile f).isSome) →
        (∀ f ∈ cfg.submission_files env, (env.readFile f).isSome) →
        (∃ t r, (MossClient.send cfg env replies).2.trace =
            t ++ [WireEvent.sendStr ("query 0 " ++ cfg.comment ++ "\n"),
                  WireEvent.didRecv r])
        ∧ (MossClient.send cfg env replies).2.trace.countP
            (fun e => e = WireEvent.sendStr ("query 0 " ++ cfg.comment ++ "\n")) = 1 := by
  constructor
  · intro st
    rfl
  · intro env replies hno hbase hsub
    rw [send_ok_eq cfg env replies hno, send_rest_ok_eq cfg env _ hbase hsub]
    constructor
    · exact ⟨_, _, rfl⟩
    · simp only [List.countP_append]
      rw [countP_query_file_events, countP_query_file_events]
      rw [List.countP_eq_zero.mpr (fun a ha => by simpa using header_event_ne_query cfg a ha)]
      simp

/-- C6 witness: the fixture session sends exactly one query line
`query 0 test run`, after the uploads and right before the final read. -/
theorem c6_witness :
    (¬ascii_lower (header_reply replies1) = "no") ∧
    ((∃ t r, (MossClient.send cfg1 env1 replies1).2.trace =
        t ++ [WireEvent.sendStr ("query 0 " ++ cfg1.comment ++ "\n"),
              WireEvent.didRecv r])
      ∧ (MossClient.send cfg1 env1 replies1).2.trace.countP
          (fun e => e = WireEvent.sendStr ("query 0 " ++ cfg1.comment ++ "\n")) = 1) :=
  ⟨by decide, (c6_query_line cfg1).2 env1 replies1 (by decide) (by decide) (by decide)⟩

/-- C7: on the success path the client performs, after the query line,
exactly one blocking read of at most 1024 bytes (the trace ends with that
single `recv`), and `send()` returns the stripped decoded text of that read
verbatim, with no further parsing. -/
theorem c7_result_returned_verbatim (cfg : MossConfig) (env : Env) (replies : List String)
    (hno : ¬ascii_lower (header_reply replies) = "no")
    (hbase : ∀ f ∈ cfg.base_files env, (env.readFile f).isSome)
    (hsub : ∀ f ∈ cfg.submission_files env, (env.readFile f).isSome) :
    (MossClient.send cfg env replies).1 =
      Except.ok (py_strip (take_bytes (replies.tail.headD "") 1024))
    ∧ (take_bytes (replies.tail.headD "") 1024).length ≤ 1024
    ∧ ∃ t, (MossClient.send cfg env replies).2.trace =
        t ++ [WireEvent.sendStr ("query 0 " ++ cfg.comment ++ "\n"),
              WireEvent.didRecv (take_bytes (replies.tail.headD "") 1024)] := by
  rw [send_ok_eq cfg env replies hno, send_rest_ok_eq cfg env _ hbase hsub]
  refine ⟨rfl, ?_, ⟨_, rfl⟩⟩
  show ((replies.tail.headD "").data.take 1024).length ≤ 1024
  rw [List.length_take]
  omega

/-- C7 witness: the fixture session returns the stripped URL text of the
single post-query read verbatim. -/
theorem c7_witness :
    (¬ascii_lower (header_reply replies1) = "no") ∧
    (MossClient.send cfg1 env1 replies1).1 =
      Except.ok "http://moss.stanford.edu/results/123" :=
  ⟨by decide, by
    have h := (c7_result_returned_verbatim cfg1 env1 replies1
      (by decide) (by decide) (by decide)).1
    rw [h]
    exact congrArg Except.ok (by decide)⟩
